import Mathlib

/-!
Verification of the reservation_pl availability monitor against its design
specification.  The Python sources are shallowly embedded: dates are day
numbers (days since 1970-01-01), HH:MM time strings are minutes of the day
(lexicographic comparison of the strings agrees with numeric comparison of
these encodings), Python's stable `sorted` is modelled by `List.insertionSort`
(any two stable sorts for the same total preorder agree), and dict iteration
order is modelled by first-occurrence key lists.
-/

namespace ReservationPl

/-! ## Calendar arithmetic

`datetime` objects are represented by their day number.  `monthOfDay` and
`weekdayOfDay` model `.month` and `.weekday()`; `dayNum` converts a concrete
`Y-M-D` date to its day number (standard civil-from-days / days-from-civil
conversions, Gregorian calendar). -/

/-- Month (1..12) of a day number counted in days since 1970-01-01, modelling
Python `datetime.month` for the date reached by `timedelta(days=1)` steps. -/
def monthOfDay (z : Nat) : Nat :=
  let zs := z + 719468
  let doe := zs % 146097
  let yoe := (doe - doe / 1460 + doe / 36524 - doe / 146096) / 365
  let doy := doe - (365 * yoe + yoe / 4 - yoe / 100)
  let mp := (5 * doy + 2) / 153
  if mp < 10 then mp + 3 else mp - 9

/-- Weekday of a day number, Monday = 0 as in Python `datetime.weekday()`;
1970-01-01 was a Thursday (weekday 3). -/
def weekdayOfDay (z : Nat) : Nat := (z + 3) % 7

/-- Day number (days since 1970-01-01) of a calendar date, used to write
concrete dates such as 2025-08-10 in examples. -/
def dayNum (y m d : Nat) : Nat :=
  let ys := if m ≤ 2 then y - 1 else y
  let era := ys / 400
  let yoe := ys % 400
  let doy := (153 * (if 2 < m then m - 3 else m + 9) + 2) / 5 + d - 1
  let doe := yoe * 365 + yoe / 4 - yoe / 100 + doy
  era * 146097 + doe - 719468

theorem monthOfDay_sanity :
    monthOfDay (dayNum 2025 8 10) = 8 ∧ monthOfDay (dayNum 2025 8 12) = 8 ∧
      monthOfDay (dayNum 2025 12 31) = 12 ∧ monthOfDay (dayNum 2026 1 1) = 1 := by
  decide

theorem weekdayOfDay_sanity :
    weekdayOfDay (dayNum 2025 8 10) = 6 ∧ weekdayOfDay (dayNum 2025 8 11) = 0 := by
  decide

/-! ## Data model (models.py) -/

/-- Closed enum of the four citizenship options of the registration form. -/
inductive Citizenship where
  | belarus
  | russia
  | ukraine
  | stateless
deriving DecidableEq, Repr

/-- Closed enum of the three application types of the registration form. -/
inductive ApplicationType where
  | adult
  | adultWithChildren
  | minor
deriving DecidableEq, Repr

/-- Registrant record of models.py.  `id` is the database primary key used as
the priority identifier (`Optional[int]` in the source, always present on the
rows the monitor reads, hence modelled as `Int` with a default). -/
structure Registrant where
  id : Int := 0
  name : String
  surname : String
  citizenship : Citizenship
  email : String
  phone : String
  applicationType : ApplicationType
  desiredMonth : Int
  reservation : Option String := none
deriving DecidableEq, Repr

/-- Discovered slot, as in the dictionaries built by `get_timeslots`: the
`YYYY-MM-DD` date string is represented by its day number and the `HH:MM` time
string by minutes of the day. -/
structure Slot where
  date : Nat
  time : Nat
deriving DecidableEq, Repr

/-- Month of a slot, as computed by
`datetime.strptime(slot['date'], "%Y-%m-%d").month` in the distributor. -/
def slotMonth (s : Slot) : Int := (monthOfDay s.date : Int)

/-! ## Sorting relations used by the distributor

Python's `sorted` is a stable sort; any stable sort for the same total
preorder produces the same output, so it is modelled by
`List.insertionSort` (stable, structurally recursive). -/

/-- Ordering of `sorted(self.pending_registrants, key=lambda r: r.id)`. -/
def regLe (a b : Registrant) : Prop := a.id ≤ b.id

instance : DecidableRel regLe := fun a b => inferInstanceAs (Decidable (a.id ≤ b.id))

instance : IsTotal Registrant regLe := ⟨fun a b => Int.le_total a.id b.id⟩

instance : IsTrans Registrant regLe := ⟨fun _ _ _ h₁ h₂ => Int.le_trans h₁ h₂⟩

/-- Ordering of `sorted(slots, key=lambda s: (s['date'], s['time']))`:
lexicographic on the (date, time) pair. -/
def slotLe (a b : Slot) : Prop := a.date < b.date ∨ (a.date = b.date ∧ a.time ≤ b.time)

instance : DecidableRel slotLe := fun a b =>
  inferInstanceAs (Decidable (a.date < b.date ∨ (a.date = b.date ∧ a.time ≤ b.time)))

instance : IsTotal Slot slotLe := by
  constructor
  intro a b
  rcases Nat.lt_trichotomy a.date b.date with h | h | h
  · exact Or.inl (Or.inl h)
  · rcases Nat.le_total a.time b.time with ht | ht
    · exact Or.inl (Or.inr ⟨h, ht⟩)
    · exact Or.inr (Or.inr ⟨h.symm, ht⟩)
  · exact Or.inr (Or.inl h)

instance : IsTrans Slot slotLe := by
  constructor
  intro a b c hab hbc
  rcases hab with h₁ | ⟨e₁, t₁⟩
  · rcases hbc with h₂ | ⟨e₂, _⟩
    · exact Or.inl (Nat.lt_trans h₁ h₂)
    · exact Or.inl (e₂ ▸ h₁)
  · rcases hbc with h₂ | ⟨e₂, t₂⟩
    · exact Or.inl (e₁ ▸ h₂)
    · exact Or.inr ⟨e₁.trans e₂, Nat.le_trans t₁ t₂⟩

/-! ## Priority distributor
(realtime_availability_monitor.py, distribute_registrants_to_slots) -/

/-- Keys of the `slots_by_month` dict in insertion order: the distinct slot
months in order of first occurrence in `available_slots`. -/
def monthKeys (slots : List Slot) : List Int :=
  slots.foldl (fun ks s => if slotMonth s ∈ ks then ks else ks ++ [slotMonth s]) []

/-- Translation of `distribute_registrants_to_slots`: return `[]` when either
input is empty; group slots by month (dict in first-occurrence order); group
registrants by desired month from the id-sorted pending list; then, for each
slot month that also has registrants, pair the i-th slot in (date, time) order
with the i-th registrant in id order while both exist (the enumerate loop with
the `i < len(registrants)` guard is exactly `List.zip`). -/
def distribute_registrants_to_slots (available_slots : List Slot)
    (pending_registrants : List Registrant) : List (Registrant × Slot) :=
  if available_slots.isEmpty || pending_registrants.isEmpty then []
  else
    let regsSorted := pending_registrants.insertionSort regLe
    (monthKeys available_slots).flatMap (fun m =>
      if regsSorted.any (fun r => r.desiredMonth == m) then
        let slotsSorted := (available_slots.filter (fun s => slotMonth s == m)).insertionSort slotLe
        let regsM := regsSorted.filter (fun r => r.desiredMonth == m)
        regsM.zip slotsSorted
      else [])

/-! ## Helper lemmas: stable sorting and grouping -/

theorem sorted_eq_of_perm {α : Type} {r : α → α → Prop} :
    ∀ {l₁ l₂ : List α}, l₁.Perm l₂ → l₁.Pairwise r → l₂.Pairwise r →
      (∀ a ∈ l₁, ∀ b ∈ l₁, r a b → r b a → a = b) → l₁ = l₂
  | [], l₂, hp, _, _, _ => (hp.nil_eq).symm ▸ rfl
  | a :: t₁, [], hp, _, _, _ => absurd (hp.symm.nil_eq) (by simp)
  | a :: t₁, b :: t₂, hp, hs₁, hs₂, hanti => by
    have hab : a = b := by
      by_cases h : a = b
      · exact h
      · have hbmem : b ∈ a :: t₁ := hp.symm.subset (List.mem_cons_self b t₂)
        have hamem : a ∈ b :: t₂ := hp.subset (List.mem_cons_self a t₁)
        have hb₁ : b ∈ t₁ := by
          rcases List.mem_cons.mp hbmem with h' | h'
          · exact absurd h'.symm h
          · exact h'
        have ha₂ : a ∈ t₂ := by
          rcases List.mem_cons.mp hamem with h' | h'
          · exact absurd h' h
          · exact h'
        have hr₁ : r a b := (List.pairwise_cons.mp hs₁).1 b hb₁
        have hr₂ : r b a := (List.pairwise_cons.mp hs₂).1 a ha₂
        exact hanti a (List.mem_cons_self a t₁) b hbmem hr₁ hr₂
    subst hab
    have htp : t₁.Perm t₂ := hp.cons_inv
    have ht : t₁ = t₂ :=
      sorted_eq_of_perm htp (List.pairwise_cons.mp hs₁).2 (List.pairwise_cons.mp hs₂).2
        (fun x hx y hy => hanti x (List.mem_cons_of_mem a hx) y (List.mem_cons_of_mem a hy))
    rw [ht]

theorem filter_insertionSort_eq {α : Type} (r : α → α → Prop) [DecidableRel r]
    [IsTotal α r] [IsTrans α r] (p : α → Bool) (l : List α)
    (hanti : ∀ a ∈ l, ∀ b ∈ l, r a b → r b a → a = b) :
    (l.insertionSort r).filter p = (l.filter p).insertionSort r := by
  have hperm : ((l.insertionSort r).filter p).Perm ((l.filter p).insertionSort r) :=
    ((List.perm_insertionSort r l).filter p).trans
      (List.perm_insertionSort r (l.filter p)).symm
  have hs₁ : ((l.insertionSort r).filter p).Pairwise r :=
    (List.sorted_insertionSort r l).filter p
  have hs₂ : ((l.filter p).insertionSort r).Pairwise r :=
    List.sorted_insertionSort r (l.filter p)
  refine sorted_eq_of_perm hperm hs₁ hs₂ ?_
  intro a ha b hb
  have ha' : a ∈ l := (List.mem_insertionSort r).mp (List.mem_of_mem_filter ha)
  have hb' : b ∈ l := (List.mem_insertionSort r).mp (List.mem_of_mem_filter hb)
  exact hanti a ha' b hb'

theorem monthKeys_loop_mem (m : Int) :
    ∀ (slots : List Slot) (acc : List Int),
      (m ∈ slots.foldl
          (fun ks s => if slotMonth s ∈ ks then ks else ks ++ [slotMonth s]) acc ↔
        m ∈ acc ∨ ∃ s ∈ slots, slotMonth s = m)
  | [], acc => by simp
  | s :: t, acc => by
    rw [List.foldl_cons]
    by_cases h : slotMonth s ∈ acc
    · rw [if_pos h, monthKeys_loop_mem m t acc]
      constructor
      · rintro (hm | ⟨x, hx, hxm⟩)
        · exact Or.inl hm
        · exact Or.inr ⟨x, List.mem_cons_of_mem s hx, hxm⟩
      · rintro (hm | ⟨x, hx, hxm⟩)
        · exact Or.inl hm
        · rcases List.mem_cons.mp hx with rfl | hx'
          · exact Or.inl (hxm ▸ h)
          · exact Or.inr ⟨x, hx', hxm⟩
    · rw [if_neg h, monthKeys_loop_mem m t (acc ++ [slotMonth s])]
      constructor
      · rintro (hm | ⟨x, hx, hxm⟩)
        · rcases List.mem_append.mp hm with hm' | hm'
          · exact Or.inl hm'
          · exact Or.inr ⟨s, List.mem_cons_self s t, (List.mem_singleton.mp hm').symm⟩
        · exact Or.inr ⟨x, List.mem_cons_of_mem s hx, hxm⟩
      · rintro (hm | ⟨x, hx, hxm⟩)
        · exact Or.inl (List.mem_append.mpr (Or.inl hm))
        · rcases List.mem_cons.mp hx with rfl | hx'
          · exact Or.inl (List.mem_append.mpr (Or.inr (List.mem_singleton.mpr hxm.symm)))
          · exact Or.inr ⟨x, hx', hxm⟩

theorem monthKeys_loop_nodup :
    ∀ (slots : List Slot) (acc : List Int), acc.Nodup →
      (slots.foldl
        (fun ks s => if slotMonth s ∈ ks then ks else ks ++ [slotMonth s]) acc).Nodup
  | [], acc, h => by simpa using h
  | s :: t, acc, h => by
    rw [List.foldl_cons]
    by_cases hm : slotMonth s ∈ acc
    · rw [if_pos hm]
      exact monthKeys_loop_nodup t acc h
    · rw [if_neg hm]
      refine monthKeys_loop_nodup t (acc ++ [slotMonth s]) ?_
      simpa [List.nodup_append] using ⟨h, hm⟩

theorem mem_monthKeys (slots : List Slot) (m : Int) :
    m ∈ monthKeys slots ↔ ∃ s ∈ slots, slotMonth s = m := by
  rw [monthKeys, monthKeys_loop_mem m slots []]
  simp

theorem monthKeys_nodup (slots : List Slot) : (monthKeys slots).Nodup :=
  monthKeys_loop_nodup slots [] List.nodup_nil

theorem flatMap_eq_single {β : Type} (m : Int) (f : Int → List β) :
    ∀ (keys : List Int), keys.Nodup → (∀ k ∈ keys, k ≠ m → f k = []) →
      keys.flatMap f = if m ∈ keys then f m else []
  | [], _, _ => by simp
  | k :: t, hnd, hz => by
    rw [List.flatMap_cons,
      flatMap_eq_single m f t (List.nodup_cons.mp hnd).2
        (fun x hx => hz x (List.mem_cons_of_mem k hx))]
    by_cases hk : k = m
    · subst hk
      have hkt : k ∉ t := (List.nodup_cons.mp hnd).1
      rw [if_neg hkt, if_pos (List.mem_cons_self k t), List.append_nil]
    · have hiff : (m ∈ k :: t) ↔ (m ∈ t) := by
        constructor
        · intro hmem
          rcases List.mem_cons.mp hmem with rfl | h'
          · exact absurd rfl hk
          · exact h'
        · exact fun h' => List.mem_cons_of_mem k h'
      rw [hz k (List.mem_cons_self k t) hk, List.nil_append]
      by_cases hmt : m ∈ t
      · rw [if_pos hmt, if_pos (hiff.mpr hmt)]
      · rw [if_neg hmt, if_neg (fun hmem => hmt (hiff.mp hmem))]

theorem zip_block_month (regs : List Registrant) (slots : List Slot) (k : Int) :
    ∀ p ∈ ((regs.insertionSort regLe).filter (fun r => r.desiredMonth == k)).zip
        ((slots.filter (fun s => slotMonth s == k)).insertionSort slotLe),
      slotMonth p.2 = k := by
  intro p hp
  obtain ⟨_, h2⟩ := List.of_mem_zip hp
  have h3 : p.2 ∈ slots.filter (fun s => slotMonth s == k) :=
    (List.mem_insertionSort slotLe).mp h2
  have h4 := (List.mem_filter.mp h3).2
  simpa using h4

/-- C1: the distribution operation pairs slots and registrants independently
per calendar month.  For every month m, the assignments whose slot falls in
month m are exactly the positional zip of that month's slots sorted by
(date, time) with that month's registrants sorted ascending by priority
identifier; pairs beyond the shorter of the two lists (surplus slots or
registrants) do not occur, and no pair outside these per-month zips is
produced.  Priority identifiers are assumed pairwise distinct (database
primary keys). -/
theorem distribute_per_month (slots : List Slot) (regs : List Registrant) (m : Int)
    (hnd : (regs.map Registrant.id).Nodup) :
    (distribute_registrants_to_slots slots regs).filter (fun p => slotMonth p.2 == m) =
      ((regs.filter (fun r => r.desiredMonth == m)).insertionSort regLe).zip
        ((slots.filter (fun s => slotMonth s == m)).insertionSort slotLe) := by
  have hanti : ∀ a ∈ regs, ∀ b ∈ regs, regLe a b → regLe b a → a = b := by
    intro a ha b hb h₁ h₂
    exact List.inj_on_of_nodup_map hnd ha hb (Int.le_antisymm h₁ h₂)
  by_cases he : (slots.isEmpty || regs.isEmpty) = true
  · rcases (Bool.or_eq_true _ _).mp he with h | h
    · have hs : slots = [] := List.isEmpty_iff.mp h
      subst hs
      simp [distribute_registrants_to_slots]
    · have hr : regs = [] := List.isEmpty_iff.mp h
      subst hr
      simp [distribute_registrants_to_slots]
  · have hdist : distribute_registrants_to_slots slots regs =
        (monthKeys slots).flatMap (fun k =>
          if (regs.insertionSort regLe).any (fun r => r.desiredMonth == k) then
            ((regs.insertionSort regLe).filter (fun r => r.desiredMonth == k)).zip
              ((slots.filter (fun s => slotMonth s == k)).insertionSort slotLe)
          else []) := by
      rw [distribute_registrants_to_slots, if_neg he]
    rw [hdist, List.filter_flatMap]
    rw [flatMap_eq_single m _ (monthKeys slots) (monthKeys_nodup slots) ?hz]
    case hz =>
      intro k hk hkm
      by_cases ha : (regs.insertionSort regLe).any (fun r => r.desiredMonth == k) = true
      · rw [if_pos ha]
        rw [List.filter_eq_nil_iff]
        intro p hp
        have := zip_block_month regs slots k p hp
        simp [this, hkm]
      · rw [if_neg ha]
        rfl
    by_cases hm : m ∈ monthKeys slots
    · rw [if_pos hm]
      by_cases ha : (regs.insertionSort regLe).any (fun r => r.desiredMonth == m) = true
      · rw [if_pos ha]
        rw [List.filter_eq_self.mpr ?hall]
        case hall =>
          intro p hp
          have := zip_block_month regs slots m p hp
          simp [this]
        rw [filter_insertionSort_eq regLe _ regs hanti]
      · rw [if_neg ha]
        have hre : regs.filter (fun r => r.desiredMonth == m) = [] := by
          rw [List.filter_eq_nil_iff]
          intro r hr hcontra
          exact ha (List.any_eq_true.mpr ⟨r, (List.mem_insertionSort regLe).mpr hr, hcontra⟩)
        rw [hre]
        simp
    · rw [if_neg hm]
      have hse : slots.filter (fun s => slotMonth s == m) = [] := by
        rw [List.filter_eq_nil_iff]
        intro s hs hcontra
        exact hm ((mem_monthKeys slots m).mpr ⟨s, hs, by simpa using hcontra⟩)
      rw [hse]
      simp

/-- Example registrant used in the concrete distribution scenario of the
specification: priority identifier `i`, desiring month 8. -/
def regEx (i : Int) : Registrant :=
  { id := i, name := "Jan", surname := "Kowalski", citizenship := .ukraine,
    email := "jan@example.com", phone := "123456789", applicationType := .adult,
    desiredMonth := 8 }

/-- Registrants with priority identifiers [3, 1, 2], all desiring month 8. -/
def regsEx : List Registrant := [regEx 3, regEx 1, regEx 2]

/-- Two slots, on 2025-08-10 and 2025-08-12 (both 09:00). -/
def slotsEx : List Slot := [⟨dayNum 2025 8 10, 540⟩, ⟨dayNum 2025 8 12, 540⟩]

theorem distribute_per_month_witness :
    (regsEx.map Registrant.id).Nodup ∧
    ((distribute_registrants_to_slots slotsEx regsEx).filter (fun p => slotMonth p.2 == 8) =
        [(regEx 1, ⟨dayNum 2025 8 10, 540⟩), (regEx 2, ⟨dayNum 2025 8 12, 540⟩)]) ∧
    (∀ p ∈ distribute_registrants_to_slots slotsEx regsEx, p.1.id ≠ 3) := by
  refine ⟨by decide, ?_, by decide⟩
  rw [distribute_per_month slotsEx regsEx 8 (by decide)]
  decide

/-- C8: the distribution operation is deterministic — it is a pure function of
the slot list and the pending-registrant list, so two invocations on equal
inputs produce identical assignment lists. -/
theorem distribute_deterministic (slots₁ slots₂ : List Slot)
    (regs₁ regs₂ : List Registrant) (h₁ : slots₁ = slots₂) (h₂ : regs₁ = regs₂) :
    distribute_registrants_to_slots slots₁ regs₁ =
      distribute_registrants_to_slots slots₂ regs₂ := by
  rw [h₁, h₂]

theorem distribute_deterministic_witness :
    distribute_registrants_to_slots slotsEx regsEx =
      distribute_registrants_to_slots slotsEx regsEx :=
  distribute_deterministic slotsEx slotsEx regsEx regsEx rfl rfl

/-! ## Candidate-date computation
(realtime_availability_monitor.py, get_available_dates and get_timeslots) -/

/-- While-loop of get_available_dates: starting at `cur`, walk one day at a
time up to `maxD` inclusive, collecting the dates that are weekdays
(Monday..Friday), not in the disabled list, and whose month is a target
month.  `fuel` is the number of remaining iterations; the caller passes
exactly the iteration count of the source loop. -/
def availLoop (dis : List Nat) (tm : List Int) (maxD : Nat) : Nat → Nat → List Nat
  | _, 0 => []
  | cur, fuel + 1 =>
    if cur ≤ maxD then
      (if weekdayOfDay cur < 5 ∧ cur ∉ dis ∧ (monthOfDay cur : Int) ∈ tm then [cur] else [])
        ++ availLoop dis tm maxD (cur + 1) fuel
    else []

/-- Translation of get_available_dates: empty when there are no target months
(pending registrants), otherwise the filtered walk from max(min_date, today)
to max_date. -/
def get_available_dates (tm : List Int) (minDate maxDate today : Nat)
    (dis : List Nat) : List Nat :=
  if tm.isEmpty then []
  else availLoop dis tm maxDate (max minDate today) (maxDate + 1 - max minDate today)

/-- Dates that get_timeslots submits to the parallel probe pool: when the
available-dates list is empty the function returns before dispatching any
server call, otherwise every available date is probed exactly once. -/
def probed_dates (available_dates : List Nat) : List Nat :=
  if available_dates.isEmpty then [] else available_dates

theorem mem_availLoop (dis : List Nat) (tm : List Int) (maxD : Nat) :
    ∀ (fuel cur d : Nat),
      d ∈ availLoop dis tm maxD cur fuel ↔
        cur ≤ d ∧ d < cur + fuel ∧ d ≤ maxD ∧ weekdayOfDay d < 5 ∧
          d ∉ dis ∧ (monthOfDay d : Int) ∈ tm
  | 0, cur, d => by
    simp only [availLoop, List.not_mem_nil, false_iff]
    intro h
    omega
  | fuel + 1, cur, d => by
    rw [availLoop]
    by_cases hcm : cur ≤ maxD
    · rw [if_pos hcm]
      rw [List.mem_append, mem_availLoop dis tm maxD fuel (cur + 1) d]
      by_cases hp : weekdayOfDay cur < 5 ∧ cur ∉ dis ∧ (monthOfDay cur : Int) ∈ tm
      · rw [if_pos hp]
        simp only [List.mem_singleton]
        constructor
        · rintro (rfl | ⟨h₁, h₂, h₃, h₄⟩)
          · exact ⟨Nat.le_refl d, by omega, hcm, hp⟩
          · exact ⟨by omega, by omega, h₃, h₄⟩
        · rintro ⟨h₁, h₂, h₃, h₄⟩
          by_cases hd : d = cur
          · exact Or.inl hd
          · exact Or.inr ⟨by omega, by omega, h₃, h₄⟩
      · rw [if_neg hp]
        simp only [List.not_mem_nil, false_or]
        constructor
        · rintro ⟨h₁, h₂, h₃, h₄⟩
          exact ⟨by omega, by omega, h₃, h₄⟩
        · rintro ⟨h₁, h₂, h₃, h₄⟩
          by_cases hd : d = cur
          · subst hd
            exact absurd h₄ hp
          · exact ⟨by omega, by omega, h₃, h₄⟩
    · rw [if_neg hcm]
      simp only [List.not_mem_nil, false_iff]
      intro h
      omega

/-- C4: get_available_dates returns exactly the dates d in the inclusive
interval [max(today, site min date), site max date] that fall on a business
day (Monday..Friday), are not disabled, and whose month is a target month;
when the target-month set is empty the result is empty and get_timeslots
dispatches no probe calls that cycle. -/
theorem get_available_dates_spec (tm : List Int) (minD maxD today : Nat)
    (dis : List Nat) :
    (∀ d : Nat, d ∈ get_available_dates tm minD maxD today dis ↔
        tm ≠ [] ∧ max minD today ≤ d ∧ d ≤ maxD ∧ weekdayOfDay d < 5 ∧
          d ∉ dis ∧ (monthOfDay d : Int) ∈ tm) ∧
    get_available_dates [] minD maxD today dis = [] ∧
    probed_dates (get_available_dates [] minD maxD today dis) = [] := by
  refine ⟨?_, by simp [get_available_dates], by simp [get_available_dates, probed_dates]⟩
  intro d
  rw [get_available_dates]
  by_cases htm : tm.isEmpty
  · rw [if_pos htm]
    have : tm = [] := List.isEmpty_iff.mp htm
    simp [this]
  · rw [if_neg htm]
    rw [mem_availLoop dis tm maxD (maxD + 1 - max minD today) (max minD today) d]
    have htm' : tm ≠ [] := fun h => htm (List.isEmpty_iff.mpr h)
    constructor
    · rintro ⟨h₁, h₂, h₃, h₄⟩
      exact ⟨htm', h₁, h₃, h₄⟩
    · rintro ⟨_, h₁, h₃, h₄⟩
      exact ⟨h₁, by omega, h₃, h₄⟩

/-! ## Same-day cutoff (realtime_availability_monitor.py, get_timeslots) -/

/-- Cutoff applied in get_timeslots to the probe result of a single date:
for the current date in Europe/Warsaw, keep only the times whose HH:MM string
is strictly greater than strftime("%H:%M") of now + 3 hours; times are
minutes of the day, so the buffer wraps modulo 24 hours exactly as the
formatted string does.  Results for any other date pass through unchanged. -/
def filter_past_timeslots (todayDate nowMin dateStr : Nat) (slots : List Nat) : List Nat :=
  if dateStr = todayDate then
    slots.filter (fun s => (nowMin + 180) % 1440 < s)
  else slots

/-- Cutoff as the specification words it (for comparison with the code):
retain exactly the times at least the 3-hour buffer ahead of the current
wall-clock time. -/
def same_day_cutoff_spec (nowMin : Nat) (slots : List Nat) : List Nat :=
  slots.filter (fun s => nowMin + 180 ≤ s)

/-- C5 counterexample: at current time 10:00 (600 minutes), a same-day slot at
exactly 13:00 (780 minutes) is at least the 3-hour buffer ahead, so the claim
says it is retained; the code's strict string comparison discards it. -/
theorem filter_past_timeslots_cex :
    filter_past_timeslots (dayNum 2025 8 11) 600 (dayNum 2025 8 11) [780] = [] ∧
    same_day_cutoff_spec 600 [780] = [780] ∧
    filter_past_timeslots (dayNum 2025 8 11) 600 (dayNum 2025 8 11) [780] ≠
      same_day_cutoff_spec 600 [780] := by
  refine ⟨?_, by decide, ?_⟩ <;> decide

/-- C5 amended: for the current date the cutoff retains exactly the probed
times strictly later than current time plus the 3-hour buffer (computed
modulo 24 hours, as the HH:MM string comparison does); slots on any other
date are unaffected.  At 10:00 with the 3-hour buffer, a same-day slot at
11:30 is filtered out and one at 14:00 is retained. -/
theorem filter_past_timeslots_amended (todayDate nowMin dateStr : Nat)
    (slots : List Nat) :
    (∀ s, s ∈ filter_past_timeslots todayDate nowMin dateStr slots ↔
        s ∈ slots ∧ (dateStr = todayDate → (nowMin + 180) % 1440 < s)) ∧
    (dateStr ≠ todayDate → filter_past_timeslots todayDate nowMin dateStr slots = slots) ∧
    filter_past_timeslots todayDate 600 todayDate [690, 840] = [840] := by
  refine ⟨?_, ?_, ?_⟩
  · intro s
    by_cases hd : dateStr = todayDate
    · simp [filter_past_timeslots, hd, List.mem_filter]
    · simp [filter_past_timeslots, hd]
  · intro hd
    simp [filter_past_timeslots, hd]
  · simp [filter_past_timeslots]

theorem filter_past_timeslots_amended_witness :
    (5 ≠ 7) ∧ filter_past_timeslots 7 600 5 [100] = [100] :=
  ⟨by decide, (filter_past_timeslots_amended 7 600 5 [100]).2.1 (by decide)⟩

/-! ## Event bridge (monitor_events_manager.py, EventQueue.emit)

The queue operations used by emit (put_nowait, get_nowait) never wait, so
emit is modelled as a pure state transition returning the reported Bool and
the new queue contents. -/

/-- Event kinds of monitor_events_manager.EventType. -/
inductive EventType where
  | error
  | slotFound
  | registrationSuccess
  | registrationFailed
  | statusUpdate
  | monitorStarted
  | monitorStopped
  | databaseUpdate
deriving DecidableEq, Repr

/-- Immutable monitor event: kind, timestamp, payload, message and priority
level (1 = low .. 4 = critical). -/
structure MonitorEvent where
  eventType : EventType
  timestamp : Nat
  data : List (String × String)
  message : String
  priority : Int := 1
deriving DecidableEq, Repr

/-- Bounded event queue state: capacity and queued items, oldest first. -/
structure EventQueue where
  maxsize : Nat := 1000
  items : List MonitorEvent := []
deriving DecidableEq, Repr

/-- Full test of the underlying queue.Queue: put_nowait raises Full exactly
when maxsize is positive and at least maxsize items are queued (a
non-positive maxsize means unbounded in Python). -/
def EventQueue.isFull (q : EventQueue) : Bool :=
  0 < q.maxsize && q.maxsize ≤ q.items.length

/-- Translation of EventQueue.emit: a non-full put_nowait appends the event
and reports True; on a full queue an event of priority at least 3 evicts the
oldest queued event and is appended (True), and any other event is dropped
(False).  The source's get_nowait Empty branch is unreachable on a full
queue but is kept in the translation. -/
def EventQueue.emit (q : EventQueue) (e : MonitorEvent) : Bool × EventQueue :=
  if q.isFull then
    if 3 ≤ e.priority then
      match q.items with
      | [] => (false, q)
      | _ :: rest => (true, { q with items := rest ++ [e] })
    else (false, q)
  else (true, { q with items := q.items ++ [e] })

/-- C6: on a queue at capacity, emitting an event of priority at least 3
evicts the oldest queued event and enqueues the new one (emit reports
success and the event is present afterwards), while emitting an event of
lower priority leaves the queue unchanged and reports failure. -/
theorem emit_backpressure (q : EventQueue) (e : MonitorEvent)
    (hfull : q.isFull = true) :
    (3 ≤ e.priority →
      (q.emit e).1 = true ∧ (q.emit e).2.items = q.items.tail ++ [e] ∧
        e ∈ (q.emit e).2.items) ∧
    (e.priority < 3 →
      (q.emit e).1 = false ∧ (q.emit e).2.items = q.items) := by
  have hne : q.items ≠ [] := by
    have h := hfull
    simp only [EventQueue.isFull, Bool.and_eq_true, decide_eq_true_eq] at h
    intro hc
    rw [hc] at h
    simp at h
    omega
  constructor
  · intro hp
    rw [EventQueue.emit, if_pos hfull, if_pos hp]
    cases hq : q.items with
    | nil => exact absurd hq hne
    | cons a rest =>
      refine ⟨rfl, rfl, ?_⟩
      simp
  · intro hp
    rw [EventQueue.emit, if_pos hfull, if_neg (by omega)]
    exact ⟨rfl, rfl⟩

/-- Routine status event of a given priority, for the concrete back-pressure
scenario. -/
def evP (p : Int) : MonitorEvent :=
  { eventType := .statusUpdate, timestamp := 0, data := [], message := "status",
    priority := p }

/-- Queue of capacity 2 filled to capacity with priority-1 events. -/
def qFullEx : EventQueue := { maxsize := 2, items := [evP 1, evP 1] }

theorem emit_backpressure_witness :
    qFullEx.isFull = true ∧
    ((qFullEx.emit (evP 4)).1 = true ∧
      (qFullEx.emit (evP 4)).2.items = qFullEx.items.tail ++ [evP 4] ∧
      evP 4 ∈ (qFullEx.emit (evP 4)).2.items) :=
  ⟨by decide, (emit_backpressure qFullEx (evP 4) (by decide)).1 (by decide)⟩

/-! ## Registration retry wrapper (ajax2py.py, send_registration_request_with_retry)

The wrapper performs network I/O; what each interaction returns at each
attempt index is an explicit environment input, making the control flow a
pure function.  `attemptsMade` and `sleepsMs` instrument the run: the number
of registration submissions performed, and the backoff delays taken between
loop iterations in milliseconds (the source sleeps 0.2 s after a CAPTCHA
error and 1 s after a thrown exception). -/

/-- Classification of one completed registration attempt, as consumed by the
retry loop: the success flag of the result dict, and whether
_is_captcha_error holds of its response text. -/
structure AttemptResult where
  success : Bool
  captchaError : Bool
deriving DecidableEq, Repr

/-- Outcome of the body of one loop iteration at the submission step: either
an exception propagated to the except handler, or a returned result dict. -/
inductive AttemptStep where
  | raised
  | ok (r : AttemptResult)
deriving DecidableEq, Repr

/-- Environment of one wrapper run: per attempt index, whether get_session_id
returns a session, whether the CAPTCHA image fetch succeeds, whether the
CAPTCHA solver returns a result, and the outcome of the submission. -/
structure RetryEnv where
  sessionOk : Nat → Bool
  captchaFetchOk : Nat → Bool
  solveOk : Nat → Bool
  attempt : Nat → AttemptStep

/-- Result dict of the wrapper (the fields the claims are about), plus the
two instrumentation fields described above. -/
structure RetryOutcome where
  success : Bool
  attempt : Nat
  maxRetries : Nat
  attemptsMade : Nat
  sleepsMs : List Nat
deriving DecidableEq, Repr

/-- Loop body of send_registration_request_with_retry, one iteration per
fuel unit (the caller passes max_retries + 1, the exact range of the for
loop).  A missing session, failed CAPTCHA fetch, or failed solve returns
immediately with attempt index + 1; a raised exception retries with a
1000 ms sleep while i < max_retries; a CAPTCHA-classified result retries
with a 200 ms sleep while i < max_retries; any other returned result ends
the loop with its success flag.  The fuel-0 case is the fallthrough return
after the for loop. -/
def retryLoop (env : RetryEnv) (maxRetries : Nat) (session0 : Bool) :
    Nat → Nat → List Nat → Nat → RetryOutcome
  | _, made, sleeps, 0 =>
    { success := false, attempt := maxRetries + 1, maxRetries := maxRetries,
      attemptsMade := made, sleepsMs := sleeps }
  | i, made, sleeps, fuel + 1 =>
    if (session0 = false ∨ 0 < i) ∧ env.sessionOk i = false then
      { success := false, attempt := i + 1, maxRetries := maxRetries,
        attemptsMade := made, sleepsMs := sleeps }
    else if env.captchaFetchOk i = false then
      { success := false, attempt := i + 1, maxRetries := maxRetries,
        attemptsMade := made, sleepsMs := sleeps }
    else if env.solveOk i = false then
      { success := false, attempt := i + 1, maxRetries := maxRetries,
        attemptsMade := made, sleepsMs := sleeps }
    else
      match env.attempt i with
      | .raised =>
        if i < maxRetries then
          retryLoop env maxRetries session0 (i + 1) made (sleeps ++ [1000]) fuel
        else
          { success := false, attempt := i + 1, maxRetries := maxRetries,
            attemptsMade := made, sleepsMs := sleeps }
      | .ok r =>
        if r.captchaError then
          if i < maxRetries then
            retryLoop env maxRetries session0 (i + 1) (made + 1) (sleeps ++ [200]) fuel
          else
            { success := r.success, attempt := i + 1, maxRetries := maxRetries,
              attemptsMade := made + 1, sleepsMs := sleeps }
        else
          { success := r.success, attempt := i + 1, maxRetries := maxRetries,
            attemptsMade := made + 1, sleepsMs := sleeps }

/-- Translation of send_registration_request_with_retry: run the loop from
attempt index 0 with max_retries + 1 iterations available.  `session0` is
whether the caller supplied a session id (the monitor passes none). -/
def send_registration_request_with_retry (env : RetryEnv) (maxRetries : Nat)
    (session0 : Bool) : RetryOutcome :=
  retryLoop env maxRetries session0 0 0 [] (maxRetries + 1)

theorem retryLoop_all_captcha (env : RetryEnv) (maxRetries : Nat) (session0 : Bool)
    (hs : ∀ i, env.sessionOk i = true)
    (hc : ∀ i, env.captchaFetchOk i = true)
    (hv : ∀ i, env.solveOk i = true)
    (ha : ∀ i, ∃ r, env.attempt i = .ok r ∧ r.captchaError = true ∧ r.success = false) :
    ∀ (fuel i made : Nat) (sleeps : List Nat), i + fuel = maxRetries + 1 →
      retryLoop env maxRetries session0 i made sleeps fuel =
        { success := false, attempt := maxRetries + 1, maxRetries := maxRetries,
          attemptsMade := made + fuel,
          sleepsMs := sleeps ++ List.replicate (fuel - 1) 200 }
  | 0, i, made, sleeps, hif => by
    simp [retryLoop]
  | fuel + 1, i, made, sleeps, hif => by
    obtain ⟨r, har, hce, hsu⟩ := ha i
    rw [retryLoop]
    rw [if_neg (by simp [hs i]), if_neg (by simp [hc i]), if_neg (by simp [hv i]), har]
    simp only
    rw [if_pos hce]
    by_cases hlt : i < maxRetries
    · rw [if_pos hlt]
      rw [retryLoop_all_captcha env maxRetries session0 hs hc hv ha fuel (i + 1)
        (made + 1) (sleeps ++ [200]) (by omega)]
      have hfe : fuel = (fuel - 1) + 1 := by omega
      have h2 : made + 1 + fuel = made + (fuel + 1) := by omega
      have h3 : (sleeps ++ [200]) ++ List.replicate (fuel - 1) 200 =
          sleeps ++ List.replicate fuel 200 := by
        rw [List.append_assoc]
        congr 1
        conv_rhs => rw [hfe]
        rfl
      rw [h2, h3]
      rfl
    · rw [if_neg hlt]
      have hi : i = maxRetries := by omega
      have hfe : fuel = 0 := by omega
      subst hi
      subst hfe
      simp [hsu]

/-- C2: when every single registration attempt classifies as a CAPTCHA error
(sessions, CAPTCHA fetches and solves all succeed), the wrapper performs
exactly max_retries + 1 registration attempts, sleeping the CAPTCHA backoff
between each, and returns a failure whose reported attempt count is
max_retries + 1. -/
theorem retry_captcha_bound (env : RetryEnv) (maxRetries : Nat) (session0 : Bool)
    (hs : ∀ i, env.sessionOk i = true)
    (hc : ∀ i, env.captchaFetchOk i = true)
    (hv : ∀ i, env.solveOk i = true)
    (ha : ∀ i, ∃ r, env.attempt i = .ok r ∧ r.captchaError = true ∧ r.success = false) :
    send_registration_request_with_retry env maxRetries session0 =
      { success := false, attempt := maxRetries + 1, maxRetries := maxRetries,
        attemptsMade := maxRetries + 1,
        sleepsMs := List.replicate maxRetries 200 } := by
  rw [send_registration_request_with_retry,
    retryLoop_all_captcha env maxRetries session0 hs hc hv ha (maxRetries + 1) 0 0 []
      (by omega)]
  simp

/-- Environment in which every registration attempt classifies as a CAPTCHA
error. -/
def envCaptcha : RetryEnv :=
  { sessionOk := fun _ => true, captchaFetchOk := fun _ => true,
    solveOk := fun _ => true, attempt := fun _ => .ok ⟨false, true⟩ }

theorem retry_captcha_bound_witness :
    send_registration_request_with_retry envCaptcha 2 false =
      { success := false, attempt := 3, maxRetries := 2, attemptsMade := 3,
        sleepsMs := [200, 200] } := by
  rw [retry_captcha_bound envCaptcha 2 false (fun _ => rfl) (fun _ => rfl) (fun _ => rfl)
    (fun _ => ⟨⟨false, true⟩, rfl, rfl, rfl⟩)]
  rfl

theorem retryLoop_all_raise (env : RetryEnv) (maxRetries : Nat) (session0 : Bool)
    (hs : ∀ i, env.sessionOk i = true)
    (hc : ∀ i, env.captchaFetchOk i = true)
    (hv : ∀ i, env.solveOk i = true)
    (ha : ∀ i, env.attempt i = .raised) :
    ∀ (fuel i made : Nat) (sleeps : List Nat), i + fuel = maxRetries + 1 →
      retryLoop env maxRetries session0 i made sleeps fuel =
        { success := false, attempt := maxRetries + 1, maxRetries := maxRetries,
          attemptsMade := made,
          sleepsMs := sleeps ++ List.replicate (fuel - 1) 1000 }
  | 0, i, made, sleeps, hif => by
    simp [retryLoop]
  | fuel + 1, i, made, sleeps, hif => by
    rw [retryLoop, if_neg (by simp [hs i]), if_neg (by simp [hc i]),
      if_neg (by simp [hv i]), ha i]
    simp only
    by_cases hlt : i < maxRetries
    · rw [if_pos hlt]
      rw [retryLoop_all_raise env maxRetries session0 hs hc hv ha fuel (i + 1) made
        (sleeps ++ [1000]) (by omega)]
      have hfe : fuel = (fuel - 1) + 1 := by omega
      have h3 : (sleeps ++ [1000]) ++ List.replicate (fuel - 1) 1000 =
          sleeps ++ List.replicate fuel 1000 := by
        rw [List.append_assoc]
        congr 1
        conv_rhs => rw [hfe]
        rfl
      rw [h3]
      rfl
    · rw [if_neg hlt]
      have hi : i = maxRetries := by omega
      have hfe : fuel = 0 := by omega
      subst hi
      subst hfe
      simp

theorem retryLoop_stop (env : RetryEnv) (maxRetries : Nat) (session0 : Bool)
    (hs : ∀ i, env.sessionOk i = true)
    (hc : ∀ i, env.captchaFetchOk i = true)
    (hv : ∀ i, env.solveOk i = true) :
    ∀ (fuel i made : Nat) (sleeps : List Nat), i + fuel = maxRetries + 1 →
      ∀ (k : Nat) (r : AttemptResult), i ≤ k → k ≤ maxRetries →
        (∀ j, i ≤ j → j < k → ∃ rj, env.attempt j = .ok rj ∧ rj.captchaError = true) →
        env.attempt k = .ok r → r.captchaError = false →
        retryLoop env maxRetries session0 i made sleeps fuel =
          { success := r.success, attempt := k + 1, maxRetries := maxRetries,
            attemptsMade := made + (k - i) + 1,
            sleepsMs := sleeps ++ List.replicate (k - i) 200 }
  | 0, i, made, sleeps, hif => by
    intro k r hik hkm _ _ _
    omega
  | fuel + 1, i, made, sleeps, hif => by
    intro k r hik hkm hpre hak hce
    by_cases hik' : i = k
    · subst hik'
      rw [retryLoop, if_neg (by simp [hs i]), if_neg (by simp [hc i]),
        if_neg (by simp [hv i]), hak]
      simp only
      rw [if_neg (by simp [hce])]
      simp
    · have hlt : i < k := by omega
      obtain ⟨rj, haj, hcj⟩ := hpre i (Nat.le_refl i) hlt
      rw [retryLoop, if_neg (by simp [hs i]), if_neg (by simp [hc i]),
        if_neg (by simp [hv i]), haj]
      simp only
      rw [if_pos hcj, if_pos (show i < maxRetries by omega)]
      rw [retryLoop_stop env maxRetries session0 hs hc hv fuel (i + 1) (made + 1)
        (sleeps ++ [200]) (by omega) k r (by omega) hkm
        (fun j hj1 hj2 => hpre j (by omega) hj2) hak hce]
      have h2 : made + 1 + (k - (i + 1)) + 1 = made + (k - i) + 1 := by omega
      have hke : k - i = (k - (i + 1)) + 1 := by omega
      have h3 : (sleeps ++ [200]) ++ List.replicate (k - (i + 1)) 200 =
          sleeps ++ List.replicate (k - i) 200 := by
        rw [List.append_assoc]
        congr 1
        conv_rhs => rw [hke]
        rfl
      rw [h2, h3]

/-- Environment in which every loop iteration raises an exception at the
submission step. -/
def envRaise : RetryEnv :=
  { sessionOk := fun _ => true, captchaFetchOk := fun _ => true,
    solveOk := fun _ => true, attempt := fun _ => .raised }

/-- C7 counterexample: with max_retries = 2, an always-raising attempt body is
retried twice (two 1000 ms backoffs) over three loop iterations — exactly the
CAPTCHA-error retry bound, not a strictly smaller number of retries. -/
theorem retry_exception_cex :
    (send_registration_request_with_retry envRaise 2 false).sleepsMs = [1000, 1000] ∧
    (send_registration_request_with_retry envRaise 2 false).attempt = 3 ∧
    ¬ ((send_registration_request_with_retry envRaise 2 false).sleepsMs.length < 2) := by
  refine ⟨rfl, rfl, ?_⟩
  decide

/-- C7 amended: a thrown non-CAPTCHA exception inside the loop is retried up
to the same bound max_retries as CAPTCHA errors — not a strictly smaller one —
with a longer backoff delay between attempts (1000 ms versus the 200 ms
CAPTCHA backoff), and never indefinitely: an always-raising environment
performs max_retries + 1 bounded iterations and returns failure.  Any
non-CAPTCHA classification returned by an attempt terminates the retry loop
immediately with that outcome and its attempt count: if attempts 0..k-1
classify as CAPTCHA errors and attempt k returns a non-CAPTCHA-classified
result r, the wrapper returns r's success flag with attempt count k + 1. -/
theorem retry_exception_amended (env : RetryEnv) (maxRetries : Nat) (session0 : Bool)
    (hs : ∀ i, env.sessionOk i = true)
    (hc : ∀ i, env.captchaFetchOk i = true)
    (hv : ∀ i, env.solveOk i = true) :
    ((∀ i, env.attempt i = .raised) →
      send_registration_request_with_retry env maxRetries session0 =
        { success := false, attempt := maxRetries + 1, maxRetries := maxRetries,
          attemptsMade := 0, sleepsMs := List.replicate maxRetries 1000 }) ∧
    (∀ (k : Nat) (r : AttemptResult), k ≤ maxRetries →
      (∀ j, j < k → ∃ rj, env.attempt j = .ok rj ∧ rj.captchaError = true) →
      env.attempt k = .ok r → r.captchaError = false →
      send_registration_request_with_retry env maxRetries session0 =
        { success := r.success, attempt := k + 1, maxRetries := maxRetries,
          attemptsMade := k + 1, sleepsMs := List.replicate k 200 }) := by
  constructor
  · intro ha
    rw [send_registration_request_with_retry,
      retryLoop_all_raise env maxRetries session0 hs hc hv ha (maxRetries + 1) 0 0 []
        (by omega)]
    simp
  · intro k r hkm hpre hak hce
    rw [send_registration_request_with_retry,
      retryLoop_stop env maxRetries session0 hs hc hv (maxRetries + 1) 0 0 []
        (by omega) k r (Nat.zero_le k) hkm (fun j _ hj2 => hpre j hj2) hak hce]
    simp

theorem retry_exception_amended_witness :
    send_registration_request_with_retry envRaise 1 false =
      { success := false, attempt := 2, maxRetries := 1, attemptsMade := 0,
        sleepsMs := [1000] } := by
  rw [(retry_exception_amended envRaise 1 false (fun _ => rfl) (fun _ => rfl)
    (fun _ => rfl)).1 (fun _ => rfl)]
  rfl

/-! ## Slot parser (ajax2py.py, parse_time_slots)

The HTML fragment is a character list.  The regex
`<label for="[^"]*">(\d{2}:\d{2})</label>` is implemented directly: the
greedy `[^"]*` cannot pass a quote, so no backtracking arises, and `\d` is
modelled as an ASCII digit (the site emits ASCII digits).  `re.findall`
scans positions left to right and resumes after each match. -/

/-- Substring test, Python's `needle in hay`. -/
def strContains : List Char → List Char → Bool
  | [], needle => needle.isEmpty
  | c :: t, needle => List.isPrefixOf needle (c :: t) || strContains t needle

/-- Attempt to match the label regex at the start of `t`: literal
`<label for="`, an attribute run up to the closing quote, `">`, a captured
`HH:MM` shape, then `</label>`.  Returns the captured text and the remainder
after the match. -/
def tryLabelAt (t : List Char) : Option (String × List Char) :=
  if List.isPrefixOf ("<label for=\"").data t then
    let r1 := t.drop 12
    let attr := r1.takeWhile (fun c => c != '"')
    let r2 := r1.drop attr.length
    if List.isPrefixOf ("\">").data r2 then
      match r2.drop 2 with
      | d1 :: d2 :: c :: d3 :: d4 :: rest =>
        if d1.isDigit && d2.isDigit && c == ':' && d3.isDigit && d4.isDigit &&
            List.isPrefixOf ("</label>").data rest then
          some (String.mk [d1, d2, c, d3, d4], rest.drop 8)
        else none
      | _ => none
    else none
  else none

/-- Scan of re.findall: try the pattern at each position; on a match, emit
the capture and resume after it.  `fuel` bounds the scan by the input length
(every step consumes at least one character). -/
def findLabelsAux : Nat → List Char → List String
  | 0, _ => []
  | _ + 1, [] => []
  | fuel + 1, c :: t =>
    match tryLabelAt (c :: t) with
    | some (time, rest) => time :: findLabelsAux fuel rest
    | none => findLabelsAux fuel t

/-- Translation of parse_time_slots: the canonical "no slots" marker text
yields the empty list, otherwise all regex captures in document order. -/
def parse_time_slots (html : List Char) : List String :=
  if strContains html ("Brak wolnych godzin").data then []
  else findLabelsAux html.length html

/-- HH:MM shape of an extracted label: two digits, a colon, two digits. -/
def timeShaped (s : String) : Bool :=
  match s.data with
  | [d1, d2, c, d3, d4] =>
    d1.isDigit && d2.isDigit && c == ':' && d3.isDigit && d4.isDigit
  | _ => false

theorem tryLabelAt_shape (l : List Char) (time : String) (rest : List Char)
    (h : tryLabelAt l = some (time, rest)) : timeShaped time = true := by
  simp only [tryLabelAt] at h
  split at h
  · split at h
    · split at h
      · split at h
        · simp only [Option.some.injEq, Prod.mk.injEq] at h
          obtain ⟨rfl, rfl⟩ := h
          rename_i hcond
          simp only [Bool.and_eq_true] at hcond
          obtain ⟨⟨⟨⟨⟨h1, h2⟩, h3⟩, h4⟩, h5⟩, h6⟩ := hcond
          simp [timeShaped, h1, h2, h3, h4, h5]
        · exact absurd h (by simp)
      · exact absurd h (by simp)
    · exact absurd h (by simp)
  · exact absurd h (by simp)

theorem findLabelsAux_shape :
    ∀ (fuel : Nat) (l : List Char), ∀ s ∈ findLabelsAux fuel l, timeShaped s = true
  | 0, _ => by simp [findLabelsAux]
  | _ + 1, [] => by simp [findLabelsAux]
  | fuel + 1, c :: t => by
    intro s hs
    rw [findLabelsAux] at hs
    cases htry : tryLabelAt (c :: t) with
    | none =>
      rw [htry] at hs
      exact findLabelsAux_shape fuel t s hs
    | some p =>
      obtain ⟨time, rest⟩ := p
      rw [htry] at hs
      simp only at hs
      rcases List.mem_cons.mp hs with rfl | hs'
      · exact tryLabelAt_shape (c :: t) s rest htry
      · exact findLabelsAux_shape fuel rest s hs'

/-- Concrete well-formed fragment with two selectable labels, in document
order 09:00 then 10:30. -/
def sampleFragment : List Char :=
  ("<label for=\"A209:00\">09:00</label><label for=\"A210:30\">10:30</label>").data

/-- C9: parse_time_slots is total (a function of the fragment that always
returns a list): with the canonical "no slots" marker the result is empty;
every returned label has the HH:MM shape; on the sample fragment it returns
exactly the two labels in document order; and markup with no matching label
yields the empty list rather than an error. -/
theorem parse_time_slots_spec (html : List Char) :
    (strContains html ("Brak wolnych godzin").data = true → parse_time_slots html = []) ∧
    (∀ s ∈ parse_time_slots html, timeShaped s = true) ∧
    parse_time_slots sampleFragment = [("09:00" : String), ("10:30" : String)] ∧
    parse_time_slots ("<label>no times here").data = [] := by
  refine ⟨?_, ?_, by decide, by decide⟩
  · intro h
    rw [parse_time_slots, if_pos h]
  · intro s hs
    rw [parse_time_slots] at hs
    by_cases h : strContains html ("Brak wolnych godzin").data
    · rw [if_pos h] at hs
      exact absurd hs (by simp)
    · rw [if_neg h] at hs
      exact findLabelsAux_shape html.length html s hs

theorem parse_time_slots_spec_witness :
    parse_time_slots ("dostepne terminy Brak wolnych godzin dzisiaj").data = [] :=
  (parse_time_slots_spec (("dostepne terminy Brak wolnych godzin dzisiaj").data)).1
    (by decide)

/-! ## Registrant validation (models.py, Registrant.validate and __post_init__) -/

/-- Digits-only test of Python str.isdigit on the strings at hand, modelled
as ASCII digits (the empty string is handled separately by the source's
falsiness check, as in the source). -/
def isAllDigits (s : String) : Bool := s.data.all Char.isDigit

/-- Error list collected by Registrant.validate, in source order.  The
isinstance checks on the citizenship and application-type enums always pass
in the typed model and contribute no error. -/
def validateErrors (r : Registrant) : List String :=
  (if r.name = "" ∨ 15 < r.name.length then
    [("Name is required and must be max 15 characters" : String)] else []) ++
  (if r.surname = "" ∨ 20 < r.surname.length then
    [("Surname is required and must be max 20 characters" : String)] else []) ++
  (if r.email = "" ∨ r.email.data.contains '@' = false then
    [("Valid email address is required" : String)] else []) ++
  (if r.phone = "" ∨ isAllDigits r.phone = false then
    [("Phone number is required and must contain only digits" : String)] else []) ++
  (if ¬(1 ≤ r.desiredMonth ∧ r.desiredMonth ≤ 12) then
    [("Desired month must be between 1 and 12" : String)] else [])

/-- Construction of a Registrant: the dataclass __init__ runs __post_init__,
which raises ValueError with the joined error messages when validate
collects any error. -/
def mkRegistrant (name surname : String) (cz : Citizenship) (email phone : String)
    (atype : ApplicationType) (dm : Int) : Except String Registrant :=
  let r : Registrant :=
    { id := 0, name := name, surname := surname, citizenship := cz, email := email,
      phone := phone, applicationType := atype, desiredMonth := dm, reservation := none }
  if validateErrors r = [] then .ok r
  else .error (("Validation errors: ") ++ String.intercalate ("; ") (validateErrors r))

theorem validateErrors_nil_iff (r : Registrant) :
    validateErrors r = [] ↔
      (¬(r.name = "" ∨ 15 < r.name.length) ∧ ¬(r.surname = "" ∨ 20 < r.surname.length) ∧
        ¬(r.email = "" ∨ r.email.data.contains '@' = false) ∧
        ¬(r.phone = "" ∨ isAllDigits r.phone = false) ∧
        (1 ≤ r.desiredMonth ∧ r.desiredMonth ≤ 12)) := by
  rw [validateErrors]
  split_ifs with h1 h2 h3 h4 h5 <;> simp_all

/-- C10: constructing a Registrant validates the data-model constraints: an
empty or over-15-character name, empty or over-20-character surname, empty
or non-digits phone, or a desired month outside 1..12 makes construction
raise ValueError; and every successfully constructed Registrant satisfies
all of these field constraints. -/
theorem registrant_validation (name surname : String) (cz : Citizenship)
    (email phone : String) (atype : ApplicationType) (dm : Int) :
    ((name = "" ∨ 15 < name.length ∨ surname = "" ∨ 20 < surname.length ∨
        phone = "" ∨ isAllDigits phone = false ∨ dm < 1 ∨ 12 < dm) →
      ∃ e, mkRegistrant name surname cz email phone atype dm = .error e) ∧
    (∀ r, mkRegistrant name surname cz email phone atype dm = .ok r →
      r.name ≠ "" ∧ r.name.length ≤ 15 ∧ r.surname ≠ "" ∧ r.surname.length ≤ 20 ∧
        r.phone ≠ "" ∧ isAllDigits r.phone = true ∧
        1 ≤ r.desiredMonth ∧ r.desiredMonth ≤ 12) := by
  constructor
  · intro hviol
    simp only [mkRegistrant]
    split
    case isTrue hok =>
      exfalso
      rw [validateErrors_nil_iff] at hok
      simp only at hok
      rcases hviol with h | h | h | h | h | h | h | h
      · exact hok.1 (Or.inl h)
      · exact hok.1 (Or.inr h)
      · exact hok.2.1 (Or.inl h)
      · exact hok.2.1 (Or.inr h)
      · exact hok.2.2.2.1 (Or.inl h)
      · exact hok.2.2.2.1 (Or.inr h)
      · exact absurd hok.2.2.2.2.1 (by omega)
      · exact absurd hok.2.2.2.2.2 (by omega)
    case isFalse herr =>
      exact ⟨_, rfl⟩
  · intro r hr
    simp only [mkRegistrant] at hr
    split at hr
    case isTrue hok =>
      rw [Except.ok.injEq] at hr
      subst hr
      rw [validateErrors_nil_iff] at hok
      simp only at hok
      obtain ⟨hn, hsn, _, hph, hm⟩ := hok
      refine ⟨fun h => hn (Or.inl h), Nat.not_lt.mp (fun h => hn (Or.inr h)),
        fun h => hsn (Or.inl h), Nat.not_lt.mp (fun h => hsn (Or.inr h)),
        fun h => hph (Or.inl h), ?_, hm.1, hm.2⟩
      rcases Bool.eq_false_or_eq_true (isAllDigits phone) with hb | hb
      · exact hb
      · exact absurd hb (fun hh => hph (Or.inr hh))
    case isFalse =>
      exact absurd hr (by simp)

theorem registrant_validation_witness :
    ∃ e, mkRegistrant ("") ("Kowalski") Citizenship.ukraine ("jan@example.com")
        ("123456789") ApplicationType.adult 8 = .error e :=
  (registrant_validation ("") ("Kowalski") Citizenship.ukraine ("jan@example.com")
    ("123456789") ApplicationType.adult 8).1 (Or.inl rfl)

/-! ## Response classification
(ajax2py.py, _send_registration_attempt lines 229-264 and parse_success_response)

The HTTP layer is outside the embedding; the classification is a pure
function of the status code and response text.  Python str.lower is modelled
for the alphabets occurring in the markers (ASCII plus the Polish capitals);
the parsing regexes are literal-prefix patterns with a `[^<]` capture, which
the greedy matcher below implements exactly (no backtracking can arise since
the capture cannot pass a `<`). -/

/-- Lowercasing of one character, ASCII A-Z plus the Polish capital letters
appearing in the source's markers. -/
def lowerChar (c : Char) : Char :=
  if 'A' ≤ c ∧ c ≤ 'Z' then Char.ofNat (c.toNat + 32)
  else if c = 'Ą' then 'ą'
  else if c = 'Ć' then 'ć'
  else if c = 'Ę' then 'ę'
  else if c = 'Ł' then 'ł'
  else if c = 'Ń' then 'ń'
  else if c = 'Ó' then 'ó'
  else if c = 'Ś' then 'ś'
  else if c = 'Ź' then 'ź'
  else if c = 'Ż' then 'ż'
  else c

/-- Python str.lower on the response text. -/
def toLowerPl (l : List Char) : List Char := l.map lowerChar

/-- ASCII whitespace, for str.strip and str.split on the parsed fragments. -/
def isWsChar (c : Char) : Bool := c == ' ' || c == '\t' || c == '\n' || c == '\r'

/-- Python str.strip. -/
def stripWs (l : List Char) : List Char :=
  ((l.dropWhile isWsChar).reverse.dropWhile isWsChar).reverse

/-- Python str.replace of the 5-character sequence &nbsp by a space,
left to right and non-overlapping. -/
def replaceNbsp : List Char → List Char
  | '&' :: 'n' :: 'b' :: 's' :: 'p' :: t => ' ' :: replaceNbsp t
  | c :: t => c :: replaceNbsp t
  | [] => []

/-- Helper of Python str.split (no argument): accumulate the current word
reversed, emitting it at each whitespace run. -/
def splitWsAux : List Char → List Char → List (List Char)
  | [], cur => if cur.isEmpty then [] else [cur.reverse]
  | c :: t, cur =>
    if isWsChar c then
      if cur.isEmpty then splitWsAux t [] else cur.reverse :: splitWsAux t []
    else splitWsAux t (c :: cur)

/-- Python str.split (no argument): split on whitespace runs, no empty
parts. -/
def splitWs (l : List Char) : List (List Char) := splitWsAux l []

/-- Confirmed appointment fields parsed from the success page. -/
structure SuccessData where
  name : String
  surname : String
  email : String
  phone : String
  appointmentDate : String
  appointmentTime : String
  room : String
  citizenship : String
  applicationType : String
  registrationCode : String
deriving DecidableEq, Repr

/-- Attempt to match one of the parsing regexes at the start of `t`: the
literal pattern prefix, then a greedy `[^<]` capture (nonempty unless
`allowEmpty`, for the one `[^<]*` pattern), then the literal `</t>`. -/
def tryTagAt (lit : List Char) (allowEmpty : Bool) (t : List Char) :
    Option (List Char) :=
  if List.isPrefixOf lit t then
    let rest := t.drop lit.length
    let cap := rest.takeWhile (fun c => c != '<')
    if (allowEmpty || !cap.isEmpty) &&
        List.isPrefixOf (("</t>").data) (rest.drop cap.length) then
      some cap
    else none
  else none

/-- Python re.search for a literal-prefix capture pattern: try the pattern at
each position left to right, returning the first capture. -/
def searchTag (lit : List Char) (allowEmpty : Bool) : List Char → Option (List Char)
  | [] => none
  | c :: t =>
    match tryTagAt lit allowEmpty (c :: t) with
    | some cap => some cap
    | none => searchTag lit allowEmpty t

/-- Search wrapped in Except, with the source's error message for a failed
match. -/
def getTag (lit : List Char) (allowEmpty : Bool) (text : List Char)
    (err : String) : Except String (List Char) :=
  match searchTag lit allowEmpty text with
  | some cap => .ok cap
  | none => .error err

/-- Literal prefix of the registrant-name pattern. -/
def namePat : String := "Dane rejestracyjne:&nbsp<t class=\x27text\x27>"

/-- Literal prefix of the email pattern. -/
def emailPat : String := "Adres e-mail-<t class=\x27text\x27>&nbsp"

/-- Literal prefix of the phone pattern. -/
def phonePat : String := "Telefon-<t class=\x27text\x27>&nbsp"

/-- Literal prefix of the appointment pattern. -/
def apptPat : String := "Data rezerwacji,godzina,stanowisko-<br><t class=\x27text\x27>"

/-- Literal prefix of the citizenship pattern (its capture may be empty). -/
def czPat : String := "Obywatelstwo -<t class=\x27text\x27>&nbsp"

/-- Literal prefix of the application-type pattern. -/
def atPat : String := "Dotyczy -<t class=\x27text\x27>&nbsp"

/-- Literal prefix of the registration-code pattern. -/
def codePat : String := "Kod zgłoszenia-<t class=\x27text\x27>&nbsp"

/-- Translation of parse_success_response: extract the seven captures in
source order, failing with the source's message at the first miss; the name
must split into at least two parts and the appointment into at least three. -/
def parse_success_response (text : List Char) : Except String SuccessData := do
  let nameCap ← getTag ((namePat).data) false text ("Could not parse registrant name")
  let nameParts := splitWs (replaceNbsp (stripWs nameCap))
  match nameParts with
  | n :: s1 :: srest =>
    let emailCap ← getTag ((emailPat).data) false text ("Could not parse email")
    let phoneCap ← getTag ((phonePat).data) false text ("Could not parse phone")
    let apptCap ← getTag ((apptPat).data) false text
      ("Could not parse appointment details")
    let apptParts := splitWs (replaceNbsp (stripWs apptCap))
    match apptParts with
    | d0 :: t0 :: r0 :: rrest =>
      let czCap ← getTag ((czPat).data) true text ("Could not parse citizenship")
      let atCap ← getTag ((atPat).data) false text
        ("Could not parse application type")
      let codeCap ← getTag ((codePat).data) false text
        ("Could not parse registration code")
      return { name := String.mk n,
               surname := String.intercalate (" ") ((s1 :: srest).map String.mk),
               email := String.mk (stripWs emailCap),
               phone := String.mk (stripWs phoneCap),
               appointmentDate := String.mk d0,
               appointmentTime := String.mk t0,
               room := String.intercalate (" ") ((r0 :: rrest).map String.mk),
               citizenship := String.mk (stripWs czCap),
               applicationType := String.mk (stripWs atCap),
               registrationCode := String.mk (stripWs codeCap) }
    | _ => .error ("Invalid appointment format")
  | _ => .error ("Invalid name format")

/-- Marker pair of the verified-success branch: both lowercase markers of
line 233 present in the lowercased response. -/
def successMarkersPresent (t : List Char) : Bool :=
  strContains (toLowerPl t) (("dane rejestracyjne:").data) &&
    strContains (toLowerPl t) (("kod zgłoszenia-").data)

/-- Generic success phrases of line 246. -/
def successPhrasePresent (t : List Char) : Bool :=
  strContains (toLowerPl t) (("rezerwacja została").data) ||
    strContains (toLowerPl t) (("potwierdzenie").data) ||
    strContains (toLowerPl t) (("sukces").data) ||
    strContains (toLowerPl t) (("zarezerwowano").data)

/-- Reservation-error marker of line 252. -/
def reservationErrorPresent (t : List Char) : Bool :=
  strContains (toLowerPl t) (("błąd rezerwacji").data)

/-- Generic error phrases of line 255. -/
def errorPhrasePresent (t : List Char) : Bool :=
  strContains (toLowerPl t) (("błąd").data) ||
    strContains (toLowerPl t) (("error").data) ||
    strContains (toLowerPl t) (("nieprawidłowy").data) ||
    strContains (toLowerPl t) (("captcha").data) ||
    strContains (toLowerPl t) (("przez ciebie").data)

/-- Classification result of one attempt: the success flag, the message, the
attached verified fields when parsing succeeded, and whether the source
recorded a parse_error. -/
structure ClassifyResult where
  success : Bool
  message : String
  successData : Option SuccessData
  parseError : Bool
deriving DecidableEq, Repr

/-- Translation of the classification in _send_registration_attempt: on HTTP
200, the marker pair gives success (with fields attached only if
parse_success_response succeeds, else parse_error); otherwise a generic
success phrase gives success with no field verification; otherwise the
reservation-error, generic-error and unclear branches, all failures. -/
def classify_response (statusCode : Nat) (responseText : List Char) : ClassifyResult :=
  if statusCode = 200 then
    if successMarkersPresent responseText then
      match parse_success_response responseText with
      | .ok d =>
        { success := true,
          message := ("Registration successful - Code: ") ++ d.registrationCode,
          successData := some d, parseError := false }
      | .error _ =>
        { success := true,
          message := ("Registration successful but failed to parse details"),
          successData := none, parseError := true }
    else if successPhrasePresent responseText then
      { success := true, message := ("Registration appears successful"),
        successData := none, parseError := false }
    else if reservationErrorPresent responseText then
      { success := false,
        message := ("Reservation error - check availability for selected date/time"),
        successData := none, parseError := false }
    else if errorPhrasePresent responseText then
      { success := false,
        message := ("Registration failed - check response for details"),
        successData := none, parseError := false }
    else
      { success := false,
        message := ("Registration status unclear - check response manually"),
        successData := none, parseError := false }
  else
    { success := false, message := ("HTTP error"), successData := none,
      parseError := false }

/-- Whether parsing verified the confirmation fields. -/
def parsedOk : Except String SuccessData → Bool
  | .ok _ => true
  | .error _ => false

/-- C3 counterexample: the HTTP-200 response whose body is just the word
potwierdzenie is classified success, yet none of the confirmed appointment
fields can be verified — parse_success_response fails on it and no
success_data is attached. -/
theorem classify_success_cex :
    (classify_response 200 (("potwierdzenie").data)).success = true ∧
    (classify_response 200 (("potwierdzenie").data)).successData = none ∧
    parse_success_response (("potwierdzenie").data) =
      .error ("Could not parse registrant name") := by
  refine ⟨?_, ?_, ?_⟩ <;> rfl

/-- C3 amended: a success classification is returned exactly when the status
is 200 and the confirmation markup is present — either the registration-data
and registration-code marker pair, or one of the generic success phrases.
The confirmed appointment fields are parsed only in the marker case and
verified fields are attached exactly when that parse succeeds; a marker
response whose fields cannot be parsed is still classified success, with a
parse_error recorded instead, and a phrase-only response is classified
success with no field verification at all. -/
theorem classify_success_amended (st : Nat) (t : List Char) :
    ((classify_response st t).success = true ↔
      st = 200 ∧ (successMarkersPresent t = true ∨ successPhrasePresent t = true)) ∧
    ((classify_response st t).successData.isSome = true ↔
      st = 200 ∧ successMarkersPresent t = true ∧ parsedOk (parse_success_response t) = true) ∧
    ((classify_response st t).successData.isSome = true →
      (classify_response st t).success = true) := by
  by_cases hst : st = 200
  · subst hst
    rw [classify_response, if_pos rfl]
    by_cases hm : successMarkersPresent t = true
    · rw [if_pos hm]
      cases hp : parse_success_response t with
      | ok d => simp [hm, hp, parsedOk]
      | error e => simp [hm, hp, parsedOk]
    · rw [if_neg hm]
      by_cases hph : successPhrasePresent t = true
      · rw [if_pos hph]
        simp [hm, hph]
      · rw [if_neg hph]
        by_cases h3 : reservationErrorPresent t = true
        · rw [if_pos h3]
          simp [hm, hph]
        · rw [if_neg h3]
          by_cases h4 : errorPhrasePresent t = true
          · rw [if_pos h4]
            simp [hm, hph]
          · rw [if_neg h4]
            simp [hm, hph]
  · rw [classify_response, if_neg hst]
    simp [hst]

end ReservationPl
